import Mathlib

/-!
A verification of the address-search plugin (attribute/file search).

The development shallowly embeds the two Python modules of the repository:
`AddressSearchDialog.py` (the older dialog variant) and
`AddressSearchToolbar.py` (the toolbar variant, whose `AddressSearchDialog`
class contains the attribute search, the typed comparison and the file
search).  Strings are modelled as lists of characters; Python string
truthiness (`""` and `None` both falsy) is modelled explicitly.
-/

namespace AddressSearch

/-- Python strings are modelled as lists of characters. -/
abbrev Str := List Char

/-- Model of Python `s.replace(c, r)` for a single-character needle `c`:
every occurrence of `c` is replaced by `r`. -/
def replace_char (c : Char) (r : Str) : Str → Str
  | [] => []
  | x :: xs => (if x = c then r else [x]) ++ replace_char c r xs

/-- Source `AddressSearchDialog.py` line 255, `_escape_like`:
`s.replace("'", "''")` — each single quote is doubled.  The same inline
replace appears at `AddressSearchToolbar.py` line 561 for the string
equality clause. -/
def escape_like_dialog (s : Str) : Str := replace_char '\'' ['\'', '\''] s

/-- Source `AddressSearchToolbar.py` lines 47-49, `_escape_like`:
`s.replace("\\", "\\\\").replace("%", "\\%").replace("_", "\\_")` —
backslash is doubled, then the pattern wildcards `%` and `_` are
backslash-escaped.  Single quotes are left untouched. -/
def escape_like_toolbar (s : Str) : Str :=
  replace_char '_' ['\\', '_']
    (replace_char '%' ['\\', '%']
      (replace_char '\\' ['\\', '\\'] s))

/-- Model of Python `str.strip()`: whitespace removed from both ends. -/
def trimStr (s : Str) : Str :=
  ((s.dropWhile (fun c => c.isWhitespace)).reverse.dropWhile
    (fun c => c.isWhitespace)).reverse

/-- Model of Python `sep.join(parts)`. -/
def join_sep (sep : Str) : List Str → Str
  | [] => []
  | [x] => x
  | x :: y :: xs => x ++ sep ++ join_sep sep (y :: xs)

/-- The parenthesized OR-group `"(" + " OR ".join(parts) + ")"` used by both
modules when assembling the per-field clauses. -/
def or_group (parts : List Str) : Str :=
  "(".data ++ join_sep " OR ".data parts ++ ")".data

/-- The case-insensitive contains clause
`lower("NAME") LIKE lower('%TEXT%')` (`AddressSearchDialog.py` line 262,
`AddressSearchToolbar.py` line 546). -/
def contains_clause (name text : Str) : Str :=
  "lower(\"".data ++ name ++ "\") LIKE lower('%".data ++ text ++ "%')".data

/-- The exact-match clause `lower("NAME") = lower('TEXT')`
(`AddressSearchDialog.py` line 271). -/
def eq_clause (name text : Str) : Str :=
  "lower(\"".data ++ name ++ "\") = lower('".data ++ text ++ "')".data

/-- The leading-match clause `lower("NAME") LIKE lower('TEXT%')`
(`AddressSearchDialog.py` line 273). -/
def starts_clause (name text : Str) : Str :=
  "lower(\"".data ++ name ++ "\") LIKE lower('".data ++ text ++ "%')".data

/-- Field kind as seen by `AddressSearchDialog.py` line 216, which compares
the field type against `QVariant.String`. -/
inductive FieldKind where
  | STRING
  | NUMERIC
  | OTHER
deriving DecidableEq, Repr

/-- A field of the layer schema, dialog variant: a name and a kind. -/
structure FieldDescriptor where
  name : Str
  kind : FieldKind
deriving DecidableEq, Repr

/-- Source `AddressSearchDialog.py` line 216:
`[f.name() for f in layer.fields() if f.type() == QVariant.String]`. -/
def string_field_names (fields : List FieldDescriptor) : List Str :=
  (fields.filter (fun f => f.kind = FieldKind.STRING)).map (fun f => f.name)

/-- Source `AddressSearchDialog.py` lines 257-263, `_build_or_contains_expr`:
escape the text, return `None` if it is empty, otherwise OR together one
contains clause per field name, wrapped in one parenthesized group
(`None` when there are no fields). -/
def build_or_contains_expr (fields : List Str) (text : Str) : Option Str :=
  let text := escape_like_dialog text
  if text.isEmpty then none
  else
    let parts := fields.map (fun name => contains_clause name text)
    if parts.isEmpty then none else some (or_group parts)

/-- Source `AddressSearchDialog.py` lines 265-277, `_build_refine_expr`: same
escaping, clause shape selected by the match-mode label
(`"完全一致"` exact, `"前方一致"` leading match, otherwise contains). -/
def build_refine_expr (fields : List Str) (text : Str) (modeLabel : Str) :
    Option Str :=
  let text := escape_like_dialog text
  if text.isEmpty then none
  else
    let parts :=
      if modeLabel = "完全一致".data then
        fields.map (fun name => eq_clause name text)
      else if modeLabel = "前方一致".data then
        fields.map (fun name => starts_clause name text)
      else
        fields.map (fun name => contains_clause name text)
    if parts.isEmpty then none else some (or_group parts)

/-- Python truthiness of an optional string: `None` and `""` are falsy. -/
def truthy : Option Str → Bool
  | none => false
  | some s => !s.isEmpty

/-- Source `AddressSearchDialog.py` line 282:
`op = "AND" if join_label == "かつ" else "OR"`. -/
def op_of_join (joinLabel : Str) : Str :=
  if joinLabel = "かつ".data then "AND".data else "OR".data

/-- Source `AddressSearchDialog.py` lines 279-284, `_combine_expr`:
`if a and b: return f"({a} {op} {b})"` else `return a or b`, with Python
truthiness. -/
def combine_expr (a b : Option Str) (joinLabel : Str) : Option Str :=
  if truthy a && truthy b then
    some ("(".data ++ a.getD [] ++ " ".data ++ op_of_join joinLabel ++
      " ".data ++ b.getD [] ++ ")".data)
  else if truthy a then a else b

/-- The free-word builder of the dialog variant: the controller strips the
term (`run_search` line 207), keeps only the string-kind fields (line 216)
and calls `_build_or_contains_expr` only when the stripped term is nonempty
(line 222). -/
def build_contains_over_fields (fields : List FieldDescriptor) (term : Str) :
    Option Str :=
  if trimStr term ≠ [] then
    build_or_contains_expr (string_field_names fields) (trimStr term)
  else none

/-- Error outcomes of the dialog variant's `run_search`
(`AddressSearchDialog.py` lines 192-234), named after the specification's
error kinds: the "no criteria" warning (line 212), the "no string fields"
warning (line 218) and the "could not build an expression" warning
(line 233). -/
inductive DError where
  | NoSearchCriteria
  | NoSearchableFields
  | NoUsableExpression
deriving DecidableEq, Repr

/-- Inputs of the dialog variant's `run_search`: the layer schema and the
raw widget contents. -/
structure DInput where
  fields : List FieldDescriptor
  freeword : Str
  refineOn : Bool
  refineText : Str
  matchLabel : Str
  joinLabel : Str

/-- Source `AddressSearchDialog.py` line 222: the free-word sub-expression. -/
def dialog_free_expr (i : DInput) : Option Str :=
  build_contains_over_fields i.fields i.freeword

/-- Source `AddressSearchDialog.py` lines 225-227: the refinement sub-expression
(`refine_text` is the stripped text when the checkbox is on, `""`
otherwise, and the builder runs only when `refine_on and refine_text`). -/
def dialog_refine_expr (i : DInput) : Option Str :=
  if i.refineOn = true ∧ trimStr i.refineText ≠ [] then
    build_refine_expr (string_field_names i.fields) (trimStr i.refineText)
      i.matchLabel
  else none

/-- The expression-building phase of the dialog variant's `run_search`
(`AddressSearchDialog.py` lines 207-234): criteria check (line 211),
unconditional string-field check (lines 216-219), sub-expression
construction, combination (line 230) and the final truthiness check
(line 232) that decides whether a query is executed. -/
def dialog_run_search_expr (i : DInput) : Except DError Str :=
  if trimStr i.freeword = [] ∧ ¬(i.refineOn = true ∧ trimStr i.refineText ≠ []) then
    .error .NoSearchCriteria
  else if string_field_names i.fields = [] then
    .error .NoSearchableFields
  else
    let ex := combine_expr (dialog_free_expr i) (dialog_refine_expr i) i.joinLabel
    if truthy ex then .ok (ex.getD []) else .error .NoUsableExpression

/-- A field of the layer schema, toolbar variant: a name and the provider's
type name (`AddressSearchToolbar.py` line 544 reads `f.typeName()`). -/
structure TField where
  name : Str
  typeName : Str
deriving DecidableEq, Repr

/-- The tuple of `AddressSearchToolbar.py` line 545. -/
def string_type_names : List Str :=
  ["string".data, "text".data, "varchar".data, "char".data, "nchar".data,
    "nvarchar".data]

/-- Source `AddressSearchToolbar.py` lines 544-545: the lower-cased type name must
be one of the string type names. -/
def is_string_type_name (tn : Str) : Bool :=
  decide (tn.map Char.toLower ∈ string_type_names)

/-- The names of the string-typed fields, in schema order
(`AddressSearchToolbar.py` lines 543-546). -/
def string_tfield_names (fields : List TField) : List Str :=
  (fields.filter (fun f => is_string_type_name f.typeName)).map (fun f => f.name)

/-- Source `AddressSearchToolbar.py` lines 541-548: the free-word expression of the
toolbar variant — escape the term with the toolbar `_escape_like`, build
one contains clause per string-typed field, OR-join them in one group;
`None` when no string-typed field exists. -/
def expr_free_toolbar (fields : List TField) (free : Str) : Option Str :=
  let freeEsc := escape_like_toolbar free
  let parts := (string_tfield_names fields).map (fun n => contains_clause n freeEsc)
  if parts.isEmpty then none else some (or_group parts)

/-- The sign-stripping step of the numeric regex `[+-]?\d+(\.\d+)?`
(`AddressSearchToolbar.py` line 75). -/
def stripSign : Str → Str
  | [] => []
  | c :: cs => if c = '+' || c = '-' then cs else c :: cs

/-- The optional fractional part `(\.\d+)?` anchored at the end of the
string: either nothing remains, or a dot followed by one or more digits. -/
def fracOk : Str → Bool
  | [] => true
  | c :: fs => c == '.' && !fs.isEmpty && fs.all Char.isDigit

/-- The `\d+(\.\d+)?` part of the regex, matched against the whole rest. -/
def isNumberBody (t : Str) : Bool :=
  !(t.takeWhile Char.isDigit).isEmpty && fracOk (t.dropWhile Char.isDigit)

/-- Source `AddressSearchToolbar.py` lines 74-75, `_is_number`:
`re.fullmatch(r"[+-]?\d+(\.\d+)?", s or "") is not None` (with `\d`
modelled as the ASCII digits). -/
def isNumber (s : Str) : Bool := isNumberBody (stripSign s)

/-- Error outcomes of the toolbar variant's `run_search`
(`AddressSearchToolbar.py` lines 520-586), named after the specification's
error kinds: the "no criteria" warning (line 535), the "no string fields"
warning (line 550), the "enter a number" warnings (lines 565 and 570) and
the "no usable expression" warning (line 585). -/
inductive RsError where
  | NoSearchCriteria
  | NoSearchableFields
  | NonNumericComparison
  | NoUsableExpression
deriving DecidableEq, Repr

/-- Source `AddressSearchToolbar.py` lines 556-575: the typed comparison of the
toolbar variant's refinement, dispatching on the operator combo index
(0 `=`, 1 `>`, 2 `<`, otherwise contains).  `=` emits the unquoted term
when it is numeric and a quote-doubled string literal otherwise; `>`/`<`
reject non-numeric terms; contains applies the toolbar `_escape_like`. -/
def build_typed_comparison (field filt : Str) (opIdx : Nat) :
    Except RsError Str :=
  let fieldQ := "\"".data ++ field ++ "\"".data
  if opIdx = 0 then
    if isNumber filt then
      .ok ("(".data ++ fieldQ ++ " = ".data ++ filt ++ ")".data)
    else
      .ok ("(".data ++ fieldQ ++ " = '".data ++ escape_like_dialog filt ++ "')".data)
  else if opIdx = 1 then
    if isNumber filt then
      .ok ("(".data ++ fieldQ ++ " > ".data ++ filt ++ ")".data)
    else .error .NonNumericComparison
  else if opIdx = 2 then
    if isNumber filt then
      .ok ("(".data ++ fieldQ ++ " < ".data ++ filt ++ ")".data)
    else .error .NonNumericComparison
  else
    .ok ("(lower(".data ++ fieldQ ++ ") LIKE lower('%".data ++
      escape_like_toolbar filt ++ "%'))".data)

/-- Source `AddressSearchToolbar.py` lines 578-582: when both sub-expressions are
truthy the final expression is `f"({expr_free}){joiner}({expr_filter})"` —
each operand parenthesized separately, no enclosing pair — otherwise
`expr_free or expr_filter`. -/
def combine_toolbar (a b : Option Str) (logicAnd : Bool) : Option Str :=
  if truthy a && truthy b then
    some ("(".data ++ a.getD [] ++ ")".data ++
      (if logicAnd then " AND ".data else " OR ".data) ++
      "(".data ++ b.getD [] ++ ")".data)
  else if truthy a then a else b

/-- Inputs of the toolbar variant's `run_search`: the raw widget contents
and the layer schema (`AddressSearchToolbar.py` lines 526-532). -/
structure TInput where
  free : Str
  logicAnd : Bool
  useFilter : Bool
  field : Str
  opIdx : Nat
  filt : Str
  fields : List TField

/-- Source `AddressSearchToolbar.py` lines 539-550: compute the free-word
sub-expression, failing with the "no string fields" warning when the term
is present but no string-typed field exists. -/
def expr_free_step (fields : List TField) (free : Str) :
    Except RsError (Option Str) :=
  if free = [] then .ok none
  else
    match expr_free_toolbar fields free with
    | some e => .ok (some e)
    | none => .error .NoSearchableFields

/-- Source `AddressSearchToolbar.py` lines 554-575: compute the refinement
sub-expression when `use_filter and filt and field` holds (Python
truthiness), propagating the typed comparison's error. -/
def expr_filter_step (useFilter : Bool) (field filt : Str) (opIdx : Nat) :
    Except RsError (Option Str) :=
  if useFilter = true ∧ filt ≠ [] ∧ field ≠ [] then
    match build_typed_comparison field filt opIdx with
    | .error e => .error e
    | .ok s => .ok (some s)
  else .ok none

/-- The expression-building phase of the toolbar variant's `run_search`
(`AddressSearchToolbar.py` lines 526-586): strip the inputs, check the
criteria (line 534), build the free-word and refinement sub-expressions,
combine them (lines 578-582) and apply the final truthiness check
(line 584) that decides whether a query is executed. -/
def run_search_expr (i : TInput) : Except RsError Str :=
  let free := trimStr i.free
  let field := trimStr i.field
  let filt := trimStr i.filt
  if free = [] ∧ ¬(i.useFilter = true ∧ filt ≠ []) then
    .error .NoSearchCriteria
  else
    match expr_free_step i.fields free with
    | .error e => .error e
    | .ok exprFree =>
      match expr_filter_step i.useFilter field filt i.opIdx with
      | .error e => .error e
      | .ok exprFilter =>
        let fin := combine_toolbar exprFree exprFilter i.logicAnd
        if truthy fin then .ok (fin.getD []) else .error .NoUsableExpression

/-- Conceptual unescaping of the quote-doubling policy: each doubled quote
collapses back to a single quote.  Used to state the round-trip part of the
escaping claims. -/
def undoubleQuotes : Str → Str
  | [] => []
  | [c] => [c]
  | c :: d :: rest =>
    if c = '\'' ∧ d = '\'' then c :: undoubleQuotes rest
    else c :: undoubleQuotes (d :: rest)

/-- Whether `t` occurs at the head of `h` (character-wise, case
sensitive). -/
def leadsWith : Str → Str → Bool
  | [], _ => true
  | _ :: _, [] => false
  | x :: xs, y :: ys => x == y && leadsWith xs ys

/-- Model of Python `t in name`: raw, case-sensitive substring containment
(`AddressSearchToolbar.py` lines 717-726). -/
def containsSub (needle : Str) : Str → Bool
  | [] => needle.isEmpty
  | c :: rest => leadsWith needle (c :: rest) || containsSub needle rest

/-- Source `AddressSearchToolbar.py` line 713: `p.suffix.lower().lstrip(".")` —
the pathlib suffix lower-cased with all leading dots removed. -/
def norm_ext (s : Str) : Str :=
  (s.map Char.toLower).dropWhile (fun c => c = '.')

/-- A regular file as the file search sees it: its name and its pathlib
suffix (the extension including the leading dot, or empty). -/
structure FileEntry where
  name : Str
  suffix : Str
deriving DecidableEq, Repr

/-- The per-file match test of `run_file_search`
(`AddressSearchToolbar.py` lines 713-726): skip when the extension
allow-list is non-empty and the normalized suffix is not in it; with a
single token the name must contain the token; otherwise all tokens (AND)
or at least one token (OR) must be contained. -/
def file_matches (exts : List Str) (tokens : List Str) (logicAnd : Bool)
    (f : FileEntry) : Bool :=
  if exts ≠ [] ∧ norm_ext f.suffix ∉ exts then false
  else
    match tokens with
    | [t] => containsSub t f.name
    | ts =>
      if logicAnd then ts.all (fun t => containsSub t f.name)
      else ts.any (fun t => containsSub t f.name)

/-- The dialog state touched by the toolbar variant's `clear_all`
(`AddressSearchToolbar.py` lines 486-513): the input widgets, the two
result views, the layer combo plus the previous layer's feature selection,
and the folder/extension fields. -/
structure DState where
  edit_free : Str
  adv_collapsed : Bool
  combo_logic_idx : Nat
  chk_use_filter : Bool
  combo_op_idx : Nat
  edit_filter : Str
  combo_layer_idx : Nat
  prev_selected_ids : List Nat
  combo_field_idx : Nat
  tbl_rows : Nat
  tbl_cols : Nat
  list_files : List Str
  edit_folder : Str
  edit_ext : Str

/-- Source `AddressSearchToolbar.py` lines 486-513, `clear_all`: clears the
free-word text, collapses the advanced group, resets the join and operator
combos, unchecks the filter checkbox, clears the filter text, deselects the
layer (combo to index 0, previous layer's selection removed via
`unselect_layer`), empties the results table and the file list; the folder
and extension fields are not touched. -/
def clear_all (s : DState) : DState :=
  { s with
    edit_free := [], adv_collapsed := true, combo_logic_idx := 0,
    chk_use_filter := false, combo_op_idx := 0, edit_filter := [],
    combo_layer_idx := 0, prev_selected_ids := [],
    tbl_rows := 0, tbl_cols := 0, list_files := [] }

/-- Modelled from the spec (§4.1, numeric-parse rule), for the refinement
theorem on `isNumber`: the whole string is an optional sign, one or more
digits, and an optional single decimal point followed by one or more
digits. -/
def NumericShape (s : Str) : Prop :=
  ∃ sign ds fr : Str,
    s = sign ++ ds ++ fr ∧
    (sign = [] ∨ sign = ['+'] ∨ sign = ['-']) ∧
    ds ≠ [] ∧ (∀ c ∈ ds, Char.isDigit c = true) ∧
    (fr = [] ∨ ∃ fd : Str, fr = '.' :: fd ∧ fd ≠ [] ∧
      ∀ c ∈ fd, Char.isDigit c = true)

/-- Modelled from the spec (§4.3), for the refinement theorem on the file
search: `t` is a raw substring of `n`. -/
def SubstringOf (t n : Str) : Prop :=
  ∃ pre post : Str, n = pre ++ t ++ post

end AddressSearch
namespace AddressSearch

/-- Membership is preserved when a `dropWhile` prefix is removed. -/
theorem mem_of_mem_dropWhile {α : Type} (p : α → Bool) (l : List α) (c : α)
    (h : c ∈ l.dropWhile p) : c ∈ l := by
  induction l with
  | nil => simp at h
  | cons x xs ih =>
    rw [List.dropWhile_cons] at h
    by_cases hp : p x = true
    · rw [if_pos hp] at h
      exact List.mem_cons_of_mem _ (ih h)
    · rw [if_neg hp] at h
      exact h

/-- Every character of the stripped string occurs in the original. -/
theorem mem_of_mem_trimStr (s : Str) (c : Char) (h : c ∈ trimStr s) :
    c ∈ s := by
  unfold trimStr at h
  rw [List.mem_reverse] at h
  have h1 := mem_of_mem_dropWhile _ _ _ h
  rw [List.mem_reverse] at h1
  exact mem_of_mem_dropWhile _ _ _ h1

/-- Replacement is the identity when the needle does not occur. -/
theorem replace_char_id (ch : Char) (r : Str) (s : Str)
    (h : ∀ c ∈ s, c ≠ ch) : replace_char ch r s = s := by
  induction s with
  | nil => rfl
  | cons x xs ih =>
    have hx : x ≠ ch := h x (List.mem_cons_self x xs)
    rw [replace_char, if_neg hx, List.singleton_append,
      ih (fun c hc => h c (List.mem_cons_of_mem _ hc))]

/-- Quote-doubling never maps a nonempty string to the empty string. -/
theorem escape_like_dialog_ne_nil (s : Str) (hs : s ≠ []) :
    escape_like_dialog s ≠ [] := by
  cases s with
  | nil => exact absurd rfl hs
  | cons c cs =>
    unfold escape_like_dialog replace_char
    by_cases hc : c = '\'' <;> simp [hc]

/-- Round trip of the quote-doubling policy: collapsing doubled quotes
recovers the original term, so the escaped literal refers to the original
term. -/
theorem undouble_escape (s : Str) :
    undoubleQuotes (escape_like_dialog s) = s := by
  induction s with
  | nil => rfl
  | cons c cs ih =>
    by_cases hc : c = '\''
    · subst hc
      have : escape_like_dialog ('\'' :: cs) = '\'' :: '\'' :: escape_like_dialog cs := by
        simp [escape_like_dialog, replace_char]
      rw [this]
      cases hcs : escape_like_dialog cs with
      | nil =>
        have : cs = [] := by
          by_contra hne
          exact escape_like_dialog_ne_nil cs hne hcs
        simp [undoubleQuotes, this]
      | cons d rest =>
        rw [← hcs]
        simp [undoubleQuotes, ih]
    · have : escape_like_dialog (c :: cs) = c :: escape_like_dialog cs := by
        simp [escape_like_dialog, replace_char, if_neg hc]
      rw [this]
      cases hcs : escape_like_dialog cs with
      | nil =>
        have hnil : cs = [] := by
          by_contra hne
          exact escape_like_dialog_ne_nil cs hne hcs
        simp [undoubleQuotes, hnil]
      | cons d rest =>
        have : undoubleQuotes (c :: d :: rest) = c :: undoubleQuotes (d :: rest) := by
          simp [undoubleQuotes, hc]
        rw [this, ← hcs, ih]

end AddressSearch
namespace AddressSearch

/-- The `takeWhile`/`dropWhile` split over an all-satisfying prefix. -/
theorem takeWhile_app_all (p : Char → Bool) (l₁ l₂ : Str)
    (h : ∀ c ∈ l₁, p c = true) :
    (l₁ ++ l₂).takeWhile p = l₁ ++ l₂.takeWhile p ∧
    (l₁ ++ l₂).dropWhile p = l₂.dropWhile p := by
  induction l₁ with
  | nil => simp
  | cons x xs ih =>
    have hx : p x = true := h x (List.mem_cons_self x xs)
    have ih' := ih (fun c hc => h c (List.mem_cons_of_mem _ hc))
    rw [List.cons_append, List.takeWhile_cons, List.dropWhile_cons,
      if_pos hx, if_pos hx, ih'.1, ih'.2, List.cons_append]
    exact ⟨rfl, rfl⟩

/-- On an all-satisfying list, `takeWhile` keeps everything and `dropWhile` empties it. -/
theorem takeWhile_all_self (p : Char → Bool) (l : Str)
    (h : ∀ c ∈ l, p c = true) :
    l.takeWhile p = l ∧ l.dropWhile p = [] := by
  induction l with
  | nil => exact ⟨rfl, rfl⟩
  | cons x xs ih =>
    have hx := h x (List.mem_cons_self x xs)
    have ih' := ih fun c hc => h c (List.mem_cons_of_mem _ hc)
    rw [List.takeWhile_cons, List.dropWhile_cons, if_pos hx, if_pos hx,
      ih'.1, ih'.2]
    exact ⟨rfl, rfl⟩

/-- An ASCII digit is neither `+` nor `-`. -/
theorem digit_not_sign (d : Char) (h : d.isDigit = true) :
    (decide (d = '+') || decide (d = '-')) = false := by
  by_cases h1 : d = '+'
  · subst h1
    simp [Char.isDigit] at h
  · by_cases h2 : d = '-'
    · subst h2
      simp [Char.isDigit] at h
    · simp [h1, h2]

/-- The numeric rule of `_is_number` holds exactly of the strings of shape
"optional sign, one or more digits, optionally a single dot followed by
one or more digits". -/
theorem isNumber_iff (s : Str) : isNumber s = true ↔ NumericShape s := by
  constructor
  · intro h
    unfold isNumber isNumberBody at h
    rw [Bool.and_eq_true] at h
    obtain ⟨hds, hfr⟩ := h
    have hdsne : (stripSign s).takeWhile Char.isDigit ≠ [] := by
      intro hnil
      rw [hnil] at hds
      simp at hds
    have hdsall : ∀ c ∈ (stripSign s).takeWhile Char.isDigit,
        Char.isDigit c = true := fun c hc => List.mem_takeWhile_imp hc
    have hdecomp : (stripSign s).takeWhile Char.isDigit ++
        (stripSign s).dropWhile Char.isDigit = stripSign s :=
      List.takeWhile_append_dropWhile _ _
    have hfr' : (stripSign s).dropWhile Char.isDigit = [] ∨
        ∃ fd : Str, (stripSign s).dropWhile Char.isDigit = '.' :: fd ∧
          fd ≠ [] ∧ ∀ c ∈ fd, Char.isDigit c = true := by
      cases hrest : (stripSign s).dropWhile Char.isDigit with
      | nil => exact Or.inl rfl
      | cons c fs =>
        rw [hrest] at hfr
        unfold fracOk at hfr
        rw [Bool.and_eq_true, Bool.and_eq_true] at hfr
        obtain ⟨⟨hc, hfs⟩, hall⟩ := hfr
        refine Or.inr ⟨fs, ?_, ?_, fun c' hc' => List.all_eq_true.mp hall c' hc'⟩
        · rw [beq_iff_eq] at hc
          rw [hc]
        · intro hn
          rw [hn] at hfs
          simp at hfs
    cases s with
    | nil => exact absurd rfl hdsne
    | cons a as =>
      by_cases ha : (decide (a = '+') || decide (a = '-')) = true
      · have hstrip : stripSign (a :: as) = as := by
          simp only [stripSign]
          rw [if_pos ha]
        refine ⟨[a], (stripSign (a :: as)).takeWhile Char.isDigit,
          (stripSign (a :: as)).dropWhile Char.isDigit, ?_, ?_, hdsne, hdsall, hfr'⟩
        · rw [List.append_assoc, hdecomp, hstrip, List.singleton_append]
        · rw [Bool.or_eq_true, decide_eq_true_eq, decide_eq_true_eq] at ha
          cases ha with
          | inl h1 => exact Or.inr (Or.inl (by rw [h1]))
          | inr h2 => exact Or.inr (Or.inr (by rw [h2]))
      · have hstrip : stripSign (a :: as) = a :: as := by
          simp only [stripSign]
          rw [if_neg ha]
        refine ⟨[], (stripSign (a :: as)).takeWhile Char.isDigit,
          (stripSign (a :: as)).dropWhile Char.isDigit, ?_, Or.inl rfl,
          hdsne, hdsall, hfr'⟩
        rw [List.nil_append, hdecomp, hstrip]
  · rintro ⟨sign, ds, fr, rfl, hsign, hdsne, hdsall, hfr⟩
    have hdsE : ds.isEmpty = false := by
      cases hds : ds with
      | nil => exact absurd hds hdsne
      | cons d ds' => rfl
    have hstrip : stripSign (sign ++ ds ++ fr) = ds ++ fr := by
      rcases hsign with h0 | h1 | h1
      · subst h0
        rw [List.nil_append]
        cases hds : ds with
        | nil => exact absurd hds hdsne
        | cons d ds' =>
          have hd : Char.isDigit d = true := by
            apply hdsall
            rw [hds]
            exact List.mem_cons_self d ds'
          have hcond := digit_not_sign d hd
          rw [List.cons_append]
          simp only [stripSign]
          rw [if_neg (by rw [hcond]; exact Bool.false_ne_true)]
      · subst h1
        rw [List.singleton_append, List.cons_append]
        simp only [stripSign]
        rw [if_pos (by decide)]
      · subst h1
        rw [List.singleton_append, List.cons_append]
        simp only [stripSign]
        rw [if_pos (by decide)]
    unfold isNumber isNumberBody
    rw [hstrip]
    rcases hfr with h2 | ⟨fd, h2, hfdne, hfdall⟩
    · subst h2
      have h1 := takeWhile_all_self Char.isDigit ds hdsall
      rw [List.append_nil, h1.1, h1.2]
      rw [hdsE]
      rfl
    · subst h2
      have h1 := takeWhile_app_all Char.isDigit ds ('.' :: fd) hdsall
      have hdot : ('.' :: fd).takeWhile Char.isDigit = [] := by
        rw [List.takeWhile_cons, if_neg (by decide)]
      have hdot2 : ('.' :: fd).dropWhile Char.isDigit = '.' :: fd := by
        rw [List.dropWhile_cons, if_neg (by decide)]
      rw [h1.1, h1.2, hdot, hdot2, List.append_nil]
      have hfdE : fd.isEmpty = false := by
        cases hfd : fd with
        | nil => exact absurd hfd hfdne
        | cons x xs => rfl
      simp only [fracOk]
      rw [hdsE, hfdE, List.all_eq_true.mpr hfdall]
      rfl

end AddressSearch
namespace AddressSearch

/-- A nonempty present string is truthy. -/
theorem truthy_some (a : Str) (ha : a ≠ []) : truthy (some a) = true := by
  cases a with
  | nil => exact absurd rfl ha
  | cons x xs => rfl

/-- The toolbar free-word builder is absent exactly when the layer has no
string-typed field. -/
theorem expr_free_toolbar_eq_none (fields : List TField) (free : Str) :
    expr_free_toolbar fields free = none ↔ string_tfield_names fields = [] := by
  unfold expr_free_toolbar
  cases h : string_tfield_names fields with
  | nil => simp [h]
  | cons a l => simp [h]

/-- The shape of the toolbar free-word expression when a string-typed field
exists. -/
theorem expr_free_toolbar_eq_some (fields : List TField) (free : Str)
    (h : string_tfield_names fields ≠ []) :
    expr_free_toolbar fields free =
      some (or_group ((string_tfield_names fields).map
        (fun n => contains_clause n (escape_like_toolbar free)))) := by
  unfold expr_free_toolbar
  cases hn : string_tfield_names fields with
  | nil => exact absurd hn h
  | cons a l => simp [hn]

/-- The free-word step errors exactly with `NoSearchableFields`, and only
when the term is present and no string-typed field exists. -/
theorem expr_free_step_error (fields : List TField) (free : Str) (e : RsError)
    (h : expr_free_step fields free = .error e) :
    e = .NoSearchableFields ∧ free ≠ [] ∧ string_tfield_names fields = [] := by
  unfold expr_free_step at h
  by_cases hf : free = []
  · rw [if_pos hf] at h
    exact Except.noConfusion h
  · rw [if_neg hf] at h
    cases hb : expr_free_toolbar fields free with
    | some x =>
      rw [hb] at h
      exact Except.noConfusion h
    | none =>
      rw [hb] at h
      injection h with h'
      exact ⟨h'.symm, hf, (expr_free_toolbar_eq_none _ _).mp hb⟩

/-- The typed comparison only ever fails with `NonNumericComparison`. -/
theorem build_typed_comparison_error (field filt : Str) (opIdx : Nat)
    (e : RsError) (h : build_typed_comparison field filt opIdx = .error e) :
    e = .NonNumericComparison := by
  unfold build_typed_comparison at h
  by_cases h0 : opIdx = 0
  · rw [if_pos h0] at h
    by_cases hn : isNumber filt
    · rw [if_pos hn] at h
      exact Except.noConfusion h
    · rw [if_neg hn] at h
      exact Except.noConfusion h
  · rw [if_neg h0] at h
    by_cases h1 : opIdx = 1
    · rw [if_pos h1] at h
      by_cases hn : isNumber filt
      · rw [if_pos hn] at h
        exact Except.noConfusion h
      · rw [if_neg hn] at h
        injection h with h'
        exact h'.symm
    · rw [if_neg h1] at h
      by_cases h2 : opIdx = 2
      · rw [if_pos h2] at h
        by_cases hn : isNumber filt
        · rw [if_pos hn] at h
          exact Except.noConfusion h
        · rw [if_neg hn] at h
          injection h with h'
          exact h'.symm
      · rw [if_neg h2] at h
        exact Except.noConfusion h

/-- The filter step only ever fails with `NonNumericComparison`. -/
theorem expr_filter_step_error (u : Bool) (field filt : Str) (opIdx : Nat)
    (e : RsError) (h : expr_filter_step u field filt opIdx = .error e) :
    e = .NonNumericComparison := by
  unfold expr_filter_step at h
  by_cases hc : u = true ∧ filt ≠ [] ∧ field ≠ []
  · rw [if_pos hc] at h
    cases hb : build_typed_comparison field filt opIdx with
    | error e' =>
      rw [hb] at h
      injection h with h'
      rw [← h']
      exact build_typed_comparison_error _ _ _ _ hb
    | ok s =>
      rw [hb] at h
      exact Except.noConfusion h
  · rw [if_neg hc] at h
    exact Except.noConfusion h

/-- Correctness of `leadsWith`: it detects exactly the leading segments. -/
theorem leadsWith_iff (t h : Str) :
    leadsWith t h = true ↔ ∃ post : Str, h = t ++ post := by
  induction t generalizing h with
  | nil => simp [leadsWith]
  | cons x xs ih =>
    cases h with
    | nil => simp [leadsWith]
    | cons y ys =>
      simp only [leadsWith, Bool.and_eq_true, beq_iff_eq, List.cons_append,
        List.cons.injEq, ih]
      constructor
      · rintro ⟨rfl, post, rfl⟩
        exact ⟨post, rfl, rfl⟩
      · rintro ⟨post, rfl, rfl⟩
        exact ⟨rfl, post, rfl⟩

/-- Correctness of `containsSub`: it detects exactly the raw substrings. -/
theorem containsSub_iff (t hay : Str) :
    containsSub t hay = true ↔ SubstringOf t hay := by
  induction hay with
  | nil =>
    simp only [containsSub, SubstringOf]
    constructor
    · intro h
      refine ⟨[], [], ?_⟩
      have : t = [] := by
        cases t with
        | nil => rfl
        | cons x xs => simp at h
      rw [this]
      rfl
    · rintro ⟨pre, post, hp⟩
      have : pre ++ t ++ post = [] := hp.symm
      rw [List.append_eq_nil] at this
      obtain ⟨h1, _⟩ := this
      rw [List.append_eq_nil] at h1
      rw [h1.2]
      rfl
  | cons c rest ih =>
    simp only [containsSub, Bool.or_eq_true, leadsWith_iff, ih, SubstringOf]
    constructor
    · rintro (⟨post, hp⟩ | ⟨pre, post, hp⟩)
      · exact ⟨[], post, by rw [hp]; rfl⟩
      · exact ⟨c :: pre, post, by rw [List.cons_append, List.cons_append, ← hp]⟩
    · rintro ⟨pre, post, hp⟩
      cases pre with
      | nil =>
        refine Or.inl ⟨post, ?_⟩
        rw [List.nil_append] at hp
        exact hp
      | cons p ps =>
        rw [List.cons_append, List.cons_append] at hp
        injection hp with h1 h2
        exact Or.inr ⟨ps, post, h2⟩

end AddressSearch
namespace AddressSearch

/-- C1: the claim says every pattern-match clause and every string-equality
clause doubles each single quote of the term.  The code violates this: the
toolbar module's `_escape_like` (lines 47-49) escapes `\`, `%`, `_` but
leaves `'` untouched, so the free-word contains clause and the
typed-comparison contains clause embed the quote of the term `a'b` raw
(breaking the quoted literal), while the dialog module's `_escape_like`
(line 255) and the toolbar's string-equality branch do double it. -/
theorem claim_C1_escaping :
    escape_like_toolbar "a'b".data = "a'b".data
  ∧ escape_like_dialog "a'b".data = "a''b".data
  ∧ expr_free_toolbar [⟨"addr".data, "String".data⟩] "a'b".data
      = some "(lower(\"addr\") LIKE lower('%a'b%'))".data
  ∧ build_typed_comparison "addr".data "a'b".data 3
      = .ok "(lower(\"addr\") LIKE lower('%a'b%'))".data
  ∧ build_or_contains_expr ["addr".data] "a'b".data
      = some "(lower(\"addr\") LIKE lower('%a''b%'))".data
  ∧ build_typed_comparison "addr".data "a'b".data 0
      = .ok "(\"addr\" = 'a''b')".data :=
  ⟨rfl, rfl, rfl, rfl, rfl, rfl⟩

/-- C4: a string is classified numeric by `_is_number` iff it matches
"optional sign, one or more digits, optional single dot plus one or more
digits", and the rule classifies the specification's examples as stated. -/
theorem claim_C4_numeric_rule :
    (∀ s : Str, isNumber s = true ↔ NumericShape s)
  ∧ isNumber "123".data = true
  ∧ isNumber "-4.5".data = true
  ∧ isNumber "+10".data = true
  ∧ isNumber "12.3.4".data = false
  ∧ isNumber "abc".data = false
  ∧ isNumber "1e5".data = false
  ∧ isNumber "".data = false
  ∧ isNumber " 5".data = false :=
  ⟨isNumber_iff, rfl, rfl, rfl, rfl, rfl, rfl, rfl, rfl⟩

/-- C10: `clear_all` clears the free-word text, the refinement text and
checkbox, the operator and join selections, both result views, and
deselects the layer (combo to the blank entry, previous selection
removed), while the folder path and extension-list fields are unchanged. -/
theorem claim_C10_clear_all (s : DState) :
    (clear_all s).edit_free = []
  ∧ (clear_all s).edit_filter = []
  ∧ (clear_all s).chk_use_filter = false
  ∧ (clear_all s).combo_op_idx = 0
  ∧ (clear_all s).combo_logic_idx = 0
  ∧ (clear_all s).tbl_rows = 0
  ∧ (clear_all s).tbl_cols = 0
  ∧ (clear_all s).list_files = []
  ∧ (clear_all s).combo_layer_idx = 0
  ∧ (clear_all s).prev_selected_ids = []
  ∧ (clear_all s).edit_folder = s.edit_folder
  ∧ (clear_all s).edit_ext = s.edit_ext :=
  ⟨rfl, rfl, rfl, rfl, rfl, rfl, rfl, rfl, rfl, rfl, rfl, rfl⟩

/-- C2: for a quote-free term, the free-word builder emits exactly one
case-insensitive contains clause per string field (none for non-string
fields), OR-joined in one parenthesized group, and is absent when the
trimmed term is empty or no string field exists; the toolbar variant has
the same shape with its own escaping. -/
theorem claim_C2_contains_over_fields (fields : List FieldDescriptor)
    (tfields : List TField) (term : Str) (hq : ∀ c ∈ term, c ≠ '\'') :
    (trimStr term ≠ [] → string_field_names fields ≠ [] →
      build_contains_over_fields fields term =
        some (or_group ((string_field_names fields).map
          (fun n => contains_clause n (trimStr term)))))
  ∧ (trimStr term = [] → build_contains_over_fields fields term = none)
  ∧ (string_field_names fields = [] →
      build_contains_over_fields fields term = none)
  ∧ (string_tfield_names tfields ≠ [] →
      expr_free_toolbar tfields (trimStr term) =
        some (or_group ((string_tfield_names tfields).map
          (fun n => contains_clause n (escape_like_toolbar (trimStr term)))))) := by
  have hid : escape_like_dialog (trimStr term) = trimStr term :=
    replace_char_id _ _ _ (fun c hc => hq c (mem_of_mem_trimStr _ _ hc))
  refine ⟨?_, ?_, ?_, fun h => expr_free_toolbar_eq_some _ _ h⟩
  · intro hne hsf
    have h1 : (trimStr term).isEmpty = false := by
      cases htt : trimStr term with
      | nil => exact absurd htt hne
      | cons a l => rfl
    simp only [build_contains_over_fields, build_or_contains_expr]
    rw [if_pos hne, hid, h1]
    cases hsn : string_field_names fields with
    | nil => exact absurd hsn hsf
    | cons a l => simp
  · intro hnil
    unfold build_contains_over_fields
    rw [if_neg (by rw [hnil]; exact fun hc => hc rfl)]
  · intro hnf
    simp only [build_contains_over_fields, build_or_contains_expr]
    rw [hnf]
    simp

/-- C2 witness: scenario A — fields `addr` (string) and `id` (numeric) with
free term `central` yield one clause over `addr` only, and likewise in the
toolbar variant. -/
theorem claim_C2_witness :
    build_contains_over_fields
        [⟨"addr".data, FieldKind.STRING⟩, ⟨"id".data, FieldKind.NUMERIC⟩]
        "central".data =
      some (or_group ((string_field_names
        [⟨"addr".data, FieldKind.STRING⟩, ⟨"id".data, FieldKind.NUMERIC⟩]).map
          (fun n => contains_clause n (trimStr "central".data))))
  ∧ expr_free_toolbar [⟨"addr".data, "String".data⟩] (trimStr "central".data) =
      some (or_group ((string_tfield_names
        [⟨"addr".data, "String".data⟩]).map
          (fun n => contains_clause n
            (escape_like_toolbar (trimStr "central".data))))) :=
  ⟨(claim_C2_contains_over_fields
      [⟨"addr".data, FieldKind.STRING⟩, ⟨"id".data, FieldKind.NUMERIC⟩]
      [⟨"addr".data, "String".data⟩] "central".data (by decide)).1
      (by decide) (by decide),
   (claim_C2_contains_over_fields
      [⟨"addr".data, FieldKind.STRING⟩, ⟨"id".data, FieldKind.NUMERIC⟩]
      [⟨"addr".data, "String".data⟩] "central".data (by decide)).2.2.2
      (by decide)⟩

/-- C3 counterexample: the toolbar's combiner applied to the present
expressions `(x)` and `(y)` under AND yields `((x)) AND ((y))` — each
operand parenthesized separately — not the single enclosing pair
`((x) AND (y))` the claim states. -/
theorem claim_C3_counterexample :
    combine_toolbar (some "(x)".data) (some "(y)".data) true
      = some "((x)) AND ((y))".data
  ∧ "((x)) AND ((y))".data ≠ "((x) AND (y))".data :=
  ⟨rfl, by decide⟩

/-- C3 (amended): for present nonempty sub-expressions the dialog's
`_combine_expr` returns `(a AND b)` / `(a OR b)` per the join label with
one enclosing pair, while the toolbar's combination returns
`(a) AND (b)` / `(a) OR (b)` with each sub-expression parenthesized
separately and no enclosing pair; in both, switching the policy changes
only the joining operator and leaves the sub-clauses intact. -/
theorem claim_C3_combine_shape (a b : Str) (ha : a ≠ []) (hb : b ≠ []) :
    combine_expr (some a) (some b) "かつ".data
      = some ("(".data ++ a ++ " AND ".data ++ b ++ ")".data)
  ∧ combine_expr (some a) (some b) "または".data
      = some ("(".data ++ a ++ " OR ".data ++ b ++ ")".data)
  ∧ combine_toolbar (some a) (some b) true
      = some ("(".data ++ a ++ ") AND (".data ++ b ++ ")".data)
  ∧ combine_toolbar (some a) (some b) false
      = some ("(".data ++ a ++ ") OR (".data ++ b ++ ")".data) := by
  have hta := truthy_some a ha
  have htb := truthy_some b hb
  refine ⟨?_, ?_, ?_, ?_⟩
  all_goals
    first
    | (simp only [combine_expr]
       rw [hta, htb]
       simp only [Option.getD_some, List.append_assoc]
       rfl)
    | (simp only [combine_toolbar]
       rw [hta, htb]
       simp only [Option.getD_some, List.append_assoc]
       rfl)

/-- C3 witness: the amended combination shapes at `(x)` and `(y)`. -/
theorem claim_C3_witness :
    combine_expr (some "(x)".data) (some "(y)".data) "かつ".data
      = some ("(".data ++ "(x)".data ++ " AND ".data ++ "(y)".data ++ ")".data) :=
  (claim_C3_combine_shape "(x)".data "(y)".data (by decide) (by decide)).1

/-- C6: the toolbar's typed EQUALS comparison emits an unquoted numeric
equality clause when the term parses as a number and otherwise a string
equality clause whose term is quoted with each internal quote doubled
(collapsing the doubling recovers the original term). -/
theorem claim_C6_equals_dispatch (field term : Str) :
    (isNumber term = true →
      build_typed_comparison field term 0 =
        .ok ("(\"".data ++ field ++ "\" = ".data ++ term ++ ")".data))
  ∧ (isNumber term = false →
      build_typed_comparison field term 0 =
        .ok ("(\"".data ++ field ++ "\" = '".data ++
          escape_like_dialog term ++ "')".data)
      ∧ undoubleQuotes (escape_like_dialog term) = term) := by
  constructor
  · intro h
    unfold build_typed_comparison
    rw [if_pos rfl, if_pos h]
    simp [List.append_assoc]
  · intro h
    refine ⟨?_, undouble_escape term⟩
    unfold build_typed_comparison
    rw [if_pos rfl, if_neg (by rw [h]; exact Bool.false_ne_true)]
    simp [List.append_assoc]

/-- C6 witness: EQUALS with numeric term `12` emits the unquoted clause and
with non-numeric term `a'b` the quoted, quote-doubled clause. -/
theorem claim_C6_witness :
    build_typed_comparison "addr".data "12".data 0 =
      .ok ("(\"".data ++ "addr".data ++ "\" = ".data ++ "12".data ++ ")".data)
  ∧ build_typed_comparison "addr".data "a'b".data 0 =
      .ok ("(\"".data ++ "addr".data ++ "\" = '".data ++
        escape_like_dialog "a'b".data ++ "')".data) :=
  ⟨(claim_C6_equals_dispatch "addr".data "12".data).1 (by decide),
   ((claim_C6_equals_dispatch "addr".data "a'b".data).2 (by decide)).1⟩

end AddressSearch
namespace AddressSearch

/-- C5: for a non-numeric term, the toolbar's typed comparison under `>` or
`<` fails with `NonNumericComparison` (never emits a clause) and the
controller's search aborts with that error, executing no query. -/
theorem claim_C5_nonnumeric_comparison (i : TInput)
    (hu : i.useFilter = true) (hfil : trimStr i.filt ≠ [])
    (hfld : trimStr i.field ≠ [])
    (hop : i.opIdx = 1 ∨ i.opIdx = 2)
    (hnum : isNumber (trimStr i.filt) = false)
    (hfree : trimStr i.free = [] ∨ string_tfield_names i.fields ≠ []) :
    run_search_expr i = .error .NonNumericComparison
  ∧ build_typed_comparison (trimStr i.field) (trimStr i.filt) i.opIdx =
      .error .NonNumericComparison := by
  have hbtc : build_typed_comparison (trimStr i.field) (trimStr i.filt)
      i.opIdx = .error .NonNumericComparison := by
    rcases hop with h1 | h2
    · unfold build_typed_comparison
      rw [h1, if_neg (by decide), if_pos rfl,
        if_neg (by rw [hnum]; exact Bool.false_ne_true)]
    · unfold build_typed_comparison
      rw [h2, if_neg (by decide), if_neg (by decide), if_pos rfl,
        if_neg (by rw [hnum]; exact Bool.false_ne_true)]
  refine ⟨?_, hbtc⟩
  have hguard : ¬(trimStr i.free = [] ∧
      ¬(i.useFilter = true ∧ trimStr i.filt ≠ [])) :=
    fun hcon => hcon.2 ⟨hu, hfil⟩
  have hfstep : ∃ o, expr_free_step i.fields (trimStr i.free) = .ok o := by
    by_cases hf0 : trimStr i.free = []
    · exact ⟨none, by unfold expr_free_step; rw [if_pos hf0]⟩
    · rcases hfree with h | h
      · exact absurd h hf0
      · refine ⟨some (or_group ((string_tfield_names i.fields).map
          (fun n => contains_clause n (escape_like_toolbar (trimStr i.free))))), ?_⟩
        unfold expr_free_step
        rw [if_neg hf0, expr_free_toolbar_eq_some i.fields _ h]
  obtain ⟨o, ho⟩ := hfstep
  have hfiltstep : expr_filter_step i.useFilter (trimStr i.field)
      (trimStr i.filt) i.opIdx = .error .NonNumericComparison := by
    unfold expr_filter_step
    rw [if_pos ⟨hu, hfil, hfld⟩, hbtc]
  simp only [run_search_expr]
  rw [if_neg hguard]
  simp only [ho, hfiltstep]

/-- C5 witness: scenario C — comparator `>` (operator index 1) with term
`abc` on field `num` reports `NonNumericComparison` and no query runs. -/
theorem claim_C5_witness :
    run_search_expr ⟨"".data, true, true, "num".data, 1, "abc".data,
        [⟨"addr".data, "String".data⟩]⟩ = .error .NonNumericComparison
  ∧ build_typed_comparison (trimStr "num".data) (trimStr "abc".data) 1 =
      .error .NonNumericComparison :=
  claim_C5_nonnumeric_comparison
    ⟨"".data, true, true, "num".data, 1, "abc".data,
      [⟨"addr".data, "String".data⟩]⟩
    rfl (by decide) (by decide) (Or.inl rfl) (by decide) (Or.inl (by decide))

/-- C7: the dialog's combiner maps two absent arguments to absent and is
the identity on a single present argument (for either join label), and the
controller executes a query only when the combined expression is present
(truthy). -/
theorem claim_C7_combine_identity (j A B : Str) (hA : A ≠ []) :
    combine_expr none none j = none
  ∧ combine_expr (some A) none j = some A
  ∧ combine_expr none (some B) j = some B
  ∧ ∀ (i : DInput) (e : Str), dialog_run_search_expr i = .ok e →
      truthy (combine_expr (dialog_free_expr i) (dialog_refine_expr i)
        i.joinLabel) = true := by
  refine ⟨rfl, ?_, rfl, ?_⟩
  · simp only [combine_expr]
    rw [truthy_some A hA]
    rfl
  · intro i e h
    simp only [dialog_run_search_expr] at h
    by_cases h1 : trimStr i.freeword = [] ∧
        ¬(i.refineOn = true ∧ trimStr i.refineText ≠ [])
    · rw [if_pos h1] at h
      exact Except.noConfusion h
    · rw [if_neg h1] at h
      by_cases h2 : string_field_names i.fields = []
      · rw [if_pos h2] at h
        exact Except.noConfusion h
      · rw [if_neg h2] at h
        by_cases h3 : truthy (combine_expr (dialog_free_expr i)
            (dialog_refine_expr i) i.joinLabel) = true
        · exact h3
        · rw [if_neg h3] at h
          exact Except.noConfusion h

/-- C7 witness: the identity and absorption laws at concrete present
expressions `(x)`, `(y)` under the `かつ` join label. -/
theorem claim_C7_witness :
    combine_expr (some "(x)".data) none "かつ".data = some "(x)".data
  ∧ combine_expr none (some "(y)".data) "かつ".data = some "(y)".data
  ∧ combine_expr none none "かつ".data = none :=
  ⟨(claim_C7_combine_identity "かつ".data "(x)".data "(y)".data (by decide)).2.1,
   (claim_C7_combine_identity "かつ".data "(x)".data "(y)".data (by decide)).2.2.1,
   (claim_C7_combine_identity "かつ".data "(x)".data "(y)".data (by decide)).1⟩

/-- C8 counterexample: in the dialog module, a refinement-only search (the
free-word text is empty) on a layer with no string field still fails with
the `NoSearchableFields` warning, which the claim says cannot happen when
the free-word text is absent. -/
theorem claim_C8_counterexample :
    dialog_run_search_expr
        ⟨[⟨"id".data, FieldKind.NUMERIC⟩], "".data, true, "A".data,
          "含む".data, "かつ".data⟩ = .error .NoSearchableFields
  ∧ trimStr "".data = [] :=
  ⟨rfl, rfl⟩

/-- C8 (amended): the toolbar controller fails with `NoSearchableFields`
exactly when the free-word text is present and the layer has no
string-typed field; the dialog controller checks the string fields up
front and fails with `NoSearchableFields` exactly when the layer has no
string field and some search criterion is present — also in
refinement-only searches. -/
theorem claim_C8_no_searchable_fields (i : TInput) (d : DInput) :
    (run_search_expr i = .error .NoSearchableFields ↔
      trimStr i.free ≠ [] ∧ string_tfield_names i.fields = [])
  ∧ (dialog_run_search_expr d = .error .NoSearchableFields ↔
      string_field_names d.fields = [] ∧
        (trimStr d.freeword ≠ [] ∨
          (d.refineOn = true ∧ trimStr d.refineText ≠ []))) := by
  constructor
  · constructor
    · intro h
      simp only [run_search_expr] at h
      by_cases hg : trimStr i.free = [] ∧
          ¬(i.useFilter = true ∧ trimStr i.filt ≠ [])
      · rw [if_pos hg] at h
        injection h with h'
        exact RsError.noConfusion h'
      · rw [if_neg hg] at h
        cases hstep : expr_free_step i.fields (trimStr i.free) with
        | error e =>
          simp only [hstep] at h
          injection h with h'
          have := expr_free_step_error i.fields (trimStr i.free) e hstep
          exact ⟨this.2.1, this.2.2⟩
        | ok ef =>
          simp only [hstep] at h
          cases hf : expr_filter_step i.useFilter (trimStr i.field)
              (trimStr i.filt) i.opIdx with
          | error e2 =>
            simp only [hf] at h
            injection h with h'
            have := expr_filter_step_error _ _ _ _ _ hf
            rw [this] at h'
            exact RsError.noConfusion h'
          | ok efl =>
            simp only [hf] at h
            by_cases ht : truthy (combine_toolbar ef efl i.logicAnd) = true
            · rw [if_pos ht] at h
              exact Except.noConfusion h
            · rw [if_neg ht] at h
              injection h with h'
              exact RsError.noConfusion h'
    · rintro ⟨hfree, hnames⟩
      have hguard : ¬(trimStr i.free = [] ∧
          ¬(i.useFilter = true ∧ trimStr i.filt ≠ [])) :=
        fun hc => hfree hc.1
      have hstep : expr_free_step i.fields (trimStr i.free) =
          .error .NoSearchableFields := by
        unfold expr_free_step
        rw [if_neg hfree, (expr_free_toolbar_eq_none _ _).mpr hnames]
      simp only [run_search_expr]
      rw [if_neg hguard]
      simp only [hstep]
  · constructor
    · intro h
      simp only [dialog_run_search_expr] at h
      by_cases h1 : trimStr d.freeword = [] ∧
          ¬(d.refineOn = true ∧ trimStr d.refineText ≠ [])
      · rw [if_pos h1] at h
        injection h with h'
        exact DError.noConfusion h'
      · rw [if_neg h1] at h
        by_cases h2 : string_field_names d.fields = []
        · refine ⟨h2, ?_⟩
          by_cases h3 : trimStr d.freeword = []
          · right
            by_cases h4 : d.refineOn = true ∧ trimStr d.refineText ≠ []
            · exact h4
            · exact absurd ⟨h3, h4⟩ h1
          · exact Or.inl h3
        · rw [if_neg h2] at h
          by_cases h3 : truthy (combine_expr (dialog_free_expr d)
              (dialog_refine_expr d) d.joinLabel) = true
          · rw [if_pos h3] at h
            exact Except.noConfusion h
          · rw [if_neg h3] at h
            injection h with h'
            exact DError.noConfusion h'
    · rintro ⟨hnil, hcrit⟩
      have hguard : ¬(trimStr d.freeword = [] ∧
          ¬(d.refineOn = true ∧ trimStr d.refineText ≠ [])) := by
        rcases hcrit with h | h
        · exact fun hc => h hc.1
        · exact fun hc => hc.2 h
      simp only [dialog_run_search_expr]
      rw [if_neg hguard, if_pos hnil]

/-- C9: a file passing the traversal matches exactly when its normalized
extension is allowed (vacuously when the allow-list is empty) and its name
contains every token (AND policy) or at least one token (OR policy) as a
raw case-sensitive substring; with a single token the name must contain
that token. -/
theorem claim_C9_file_match (exts tokens : List Str) (andP : Bool)
    (f : FileEntry) (hne : tokens ≠ []) :
    file_matches exts tokens andP f = true ↔
      ((exts = [] ∨ norm_ext f.suffix ∈ exts)
       ∧ (andP = true → ∀ t ∈ tokens, SubstringOf t f.name)
       ∧ (andP = false → ∃ t ∈ tokens, SubstringOf t f.name)) := by
  by_cases hc : exts ≠ [] ∧ norm_ext f.suffix ∉ exts
  · have hLHS : file_matches exts tokens andP f = false := by
      unfold file_matches
      rw [if_pos hc]
    rw [hLHS]
    constructor
    · intro h
      exact absurd h (by simp)
    · rintro ⟨hext, _, _⟩
      rcases hext with h | h
      · exact absurd h hc.1
      · exact absurd h hc.2
  · have hext : exts = [] ∨ norm_ext f.suffix ∈ exts := by tauto
    cases tokens with
    | nil => exact absurd rfl hne
    | cons t ts =>
      cases ts with
      | nil =>
        have hLHS : file_matches exts [t] andP f = containsSub t f.name := by
          unfold file_matches
          rw [if_neg hc]
        rw [hLHS, containsSub_iff]
        constructor
        · intro hs
          refine ⟨hext, fun _ => ?_, fun _ => ⟨t, List.mem_singleton_self t, hs⟩⟩
          intro x hx
          rw [List.mem_singleton] at hx
          rw [hx]
          exact hs
        · rintro ⟨_, hall, hany⟩
          by_cases hA : andP = true
          · exact hall hA t (List.mem_singleton_self t)
          · have hA' : andP = false := by
              cases andP with
              | false => rfl
              | true => exact absurd rfl hA
            obtain ⟨x, hx, hs⟩ := hany hA'
            rw [List.mem_singleton] at hx
            exact hx ▸ hs
      | cons t2 ts2 =>
        have hLHS : file_matches exts (t :: t2 :: ts2) andP f =
            (if andP = true
             then (t :: t2 :: ts2).all fun x => containsSub x f.name
             else (t :: t2 :: ts2).any fun x => containsSub x f.name) := by
          unfold file_matches
          rw [if_neg hc]
        rw [hLHS]
        by_cases hA : andP = true
        · rw [if_pos hA]
          simp only [List.all_eq_true, containsSub_iff]
          constructor
          · intro hall
            exact ⟨hext, fun _ => hall,
              fun hcon => absurd (hA.symm.trans hcon) (by decide)⟩
          · rintro ⟨_, hall, _⟩
            exact hall hA
        · have hA' : andP = false := by
            cases andP with
            | false => rfl
            | true => exact absurd rfl hA
          rw [if_neg hA]
          simp only [List.any_eq_true, containsSub_iff]
          constructor
          · rintro ⟨x, hx, hs⟩
            exact ⟨hext, fun hcon => absurd hcon hA, fun _ => ⟨x, hx, hs⟩⟩
          · rintro ⟨_, _, hany⟩
            exact hany hA'

/-- C9 witness: scenario E — token `park`, allow-list `pdf`: the match
characterization instantiated at `parklist.pdf`. -/
theorem claim_C9_witness :
    file_matches ["pdf".data] ["park".data] true
        ⟨"parklist.pdf".data, ".pdf".data⟩ = true ↔
      ((["pdf".data] = [] ∨ norm_ext ".pdf".data ∈ ["pdf".data])
       ∧ (true = true → ∀ t ∈ ["park".data],
            SubstringOf t "parklist.pdf".data)
       ∧ (true = false → ∃ t ∈ ["park".data],
            SubstringOf t "parklist.pdf".data)) :=
  claim_C9_file_match ["pdf".data] ["park".data] true
    ⟨"parklist.pdf".data, ".pdf".data⟩ (by decide)

end AddressSearch
namespace AddressSearch

/-- C4 witness: the numeric-shape characterization applied at the concrete
numeric string `-4.5`. -/
theorem claim_C4_witness : NumericShape "-4.5".data :=
  (claim_C4_numeric_rule.1 "-4.5".data).mp (by decide)

/-- C8 witness: the amended characterization instantiated at a concrete
toolbar input with free-word text present and no string-typed field. -/
theorem claim_C8_witness :
    run_search_expr ⟨"x".data, true, false, "".data, 0, "".data,
        [⟨"id".data, "Integer".data⟩]⟩ = .error .NoSearchableFields ↔
      trimStr "x".data ≠ [] ∧
        string_tfield_names [⟨"id".data, "Integer".data⟩] = [] :=
  (claim_C8_no_searchable_fields
    ⟨"x".data, true, false, "".data, 0, "".data, [⟨"id".data, "Integer".data⟩]⟩
    ⟨[], "".data, false, "".data, "".data, "".data⟩).1

end AddressSearch
